import Mathlib

/-!
Verification of the Monte Carlo delivery-forecast engine in `src/main.py`.

Python floats are modelled as rationals (`ℚ`), Python ints as `ℕ`/`ℤ`,
calendar dates as `ℤ` (days since the numpy datetime64 epoch 1970-01-01,
a Thursday), and fallible computations (Python exceptions) as `Option`.
Randomness is modelled by an explicit oracle of uniform-[0,1) draws.
-/

namespace ForecastModel

/-- One entry of the risk-factor registry: the `'probability'` and
`'impact'` fields of each value of the `simulations` dict in `main.py`
(the free-text `'description'` field is never read by the engine and is
omitted). -/
structure RiskFactor where
  probability : ℚ
  impact : ℚ
deriving DecidableEq, Repr

/-- Embedding of `calculate_initial_story_points(total_stories,
stories_without_estimates, story_points_for_estimated_stories)`
(`src/main.py` lines 34-36):

    avg_story_points = story_points_for_estimated_stories / total_stories
    extrapolated_points = avg_story_points * stories_without_estimates
    return story_points_for_estimated_stories + extrapolated_points

Python raises `ZeroDivisionError` when the divisor `total_stories` is
zero; this is modelled by `none`. -/
def calculate_initial_story_points (total_stories stories_without_estimates
    story_points_for_estimated_stories : ℚ) : Option ℚ :=
  if total_stories = 0 then none
  else
    let avg_story_points := story_points_for_estimated_stories / total_stories
    let extrapolated_points := avg_story_points * stories_without_estimates
    some (story_points_for_estimated_stories + extrapolated_points)

/-- C1: the extrapolation claimed in the spec (`point_total +
(point_total / items_with_estimates) * (total_items -
items_with_estimates)`, hence `extrapolate(100, 50, 250) = 500.0`) does
not match the code: `calculate_initial_story_points` divides by
`total_stories`, so on the snapshot `total_items = 100`,
`items_with_estimates = 50`, `point_total = 250` it returns `375.0`,
contradicting both the spec and the function's own docstring example. -/
theorem calculate_initial_story_points_at_100_50_250 :
    calculate_initial_story_points 100 50 250 = some 375 := by
  norm_num [calculate_initial_story_points]

/-- C2: the code does not fail when `items_with_estimates = 0`.  With
`total_items = 100`, `items_with_estimates = 0` (so 100 stories lack
estimates) and `point_total = 250` it silently returns the fabricated
estimate `500.0`; the division it performs is by `total_stories`, so it
raises only when `total_stories = 0`. -/
theorem calculate_initial_story_points_no_domain_error :
    calculate_initial_story_points 100 100 250 = some 500 ∧
    calculate_initial_story_points 0 0 250 = none := by
  constructor <;> norm_num [calculate_initial_story_points]

/-- C3 counterexample: with `total_items = 2`, `items_with_estimates = 1`
and `point_total = 0` the extrapolation returns exactly
`point_total` (= 0) although `items_with_estimates ≠ total_items`,
refuting the claimed "equality iff `items_with_estimates =
total_items`". -/
theorem extrapolation_eq_at_zero_points :
    calculate_initial_story_points 2 1 0 = some 0 ∧ (1 : ℕ) ≠ 2 := by
  constructor
  · norm_num [calculate_initial_story_points]
  · decide

/-- C3 (amended): for a snapshot with `0 < items_with_estimates ≤
total_items` and nonnegative `point_total`, the extrapolation succeeds
and its result is `≥ point_total`; when `point_total > 0`, equality
holds iff `items_with_estimates = total_items`, while for `point_total
= 0` the result equals `point_total` unconditionally. -/
theorem extrapolation_ge_point_total (total_items items_with_estimates : ℕ)
    (pts : ℚ) (hwe : 0 < items_with_estimates)
    (hle : items_with_estimates ≤ total_items) (hpts : 0 ≤ pts) :
    ∃ r, calculate_initial_story_points total_items
        ((total_items - items_with_estimates : ℕ) : ℚ) pts = some r ∧
      pts ≤ r ∧
      (0 < pts → (r = pts ↔ items_with_estimates = total_items)) ∧
      (pts = 0 → r = pts) := by
  have htot : 0 < total_items := lt_of_lt_of_le hwe hle
  have htotQ : ((total_items : ℚ)) ≠ 0 := by
    exact_mod_cast htot.ne'
  refine ⟨pts + pts / (total_items : ℚ) *
    ((total_items - items_with_estimates : ℕ) : ℚ), ?_, ?_, ?_, ?_⟩
  · unfold calculate_initial_story_points
    simp [htotQ]
  · have h1 : 0 ≤ pts / (total_items : ℚ) := by positivity
    have h2 : (0 : ℚ) ≤ ((total_items - items_with_estimates : ℕ) : ℚ) := by
      positivity
    nlinarith
  · intro hp
    constructor
    · intro heq
      have hz : pts / (total_items : ℚ) *
          ((total_items - items_with_estimates : ℕ) : ℚ) = 0 := by linarith
      have hdiv : pts / (total_items : ℚ) ≠ 0 := by
        exact div_ne_zero hp.ne' htotQ
      have := (mul_eq_zero.mp hz).resolve_left hdiv
      have hsub : total_items - items_with_estimates = 0 := by exact_mod_cast this
      omega
    · intro heq
      have : total_items - items_with_estimates = 0 := by omega
      rw [this]
      simp
  · intro hz
    rw [hz]
    simp

/-- C3 amended witness at `total_items = 3`, `items_with_estimates = 2`,
`point_total = 6`. -/
theorem extrapolation_ge_point_total_witness :
    ∃ r, calculate_initial_story_points 3 ((3 - 2 : ℕ) : ℚ) 6 = some r ∧
      (6 : ℚ) ≤ r ∧
      ((0 : ℚ) < 6 → (r = 6 ↔ 2 = 3)) ∧
      ((6 : ℚ) = 0 → r = 6) :=
  extrapolation_ge_point_total 3 2 6 (by decide) (by decide) (by norm_num)

/-- The dict returned by `run_simulation` (`src/main.py` lines 70-88):
one entry per risk factor (`simulation_results[impact_key] =
total_impact_points`, in registry order) plus the two derived entries
`simulation_results['delivery_weeks']` and
`simulation_results['final_points']`, rendered as named fields. -/
structure TrialResult where
  contributions : List (String × ℚ)
  delivery_weeks : ℚ
  final_points : ℚ
deriving DecidableEq, Repr

/-- Model of `np.random.binomial(1, p)` (`src/main.py` line 79) by
inverse-transform sampling: given a uniform draw `u ∈ [0,1)` from the
random source, the Bernoulli sample is `1` exactly when `u < p`.  In
particular it is `0` for every draw when `p = 0` and `1` for every draw
when `p = 1`. -/
def np_binomial_draw (u p : ℚ) : ℚ :=
  if u < p then 1 else 0

/-- The inner loop of `run_simulation` (`src/main.py` lines 75-81) for
the factor at registry position `i`: over each story `j <
total_stories`, accumulate `event * impact * avg_story_size` where
`event` is a fresh Bernoulli(probability) sample.  `rand i j` is the
uniform draw backing the sample for factor `i`, story `j`. -/
def factor_contribution (rand : ℕ → ℕ → ℚ) (avg_story_size : ℚ)
    (i : ℕ) (f : RiskFactor) (total_stories : ℕ) : ℚ :=
  ((List.range total_stories).map
    (fun j => np_binomial_draw (rand i j) f.probability * f.impact *
      avg_story_size)).sum

/-- The outer loop of `run_simulation` (`src/main.py` lines 74-84) in
explicit state-passing form.  It walks the registry entries in order
(`i` is the position of the head entry), threading both the registry
state `reg` (the Python dict `simulations`, which the loop only reads)
and the accumulator `adjusted_points`; it returns the final registry
state, the per-factor results list and the final `adjusted_points`. -/
def sim_loop_st (rand : ℕ → ℕ → ℚ) (avg_story_size : ℚ)
    (total_stories : ℕ) :
    List (String × RiskFactor) → ℕ → ℚ → List (String × RiskFactor) →
    List (String × RiskFactor) × List (String × ℚ) × ℚ
  | [], _, adjusted_points, reg => (reg, [], adjusted_points)
  | (impact_key, f) :: rest, i, adjusted_points, reg =>
    let total_impact_points :=
      factor_contribution rand avg_story_size i f total_stories
    let (reg2, results, adj) :=
      sim_loop_st rand avg_story_size total_stories rest (i + 1)
        (adjusted_points + total_impact_points) reg
    (reg2, (impact_key, total_impact_points) :: results, adj)

/-- Embedding of `run_simulation(total_initial_points, simulations,
burn_rate, total_stories)` (`src/main.py` lines 39-88) with the
registry state threaded explicitly: the first component is the
registry after the call (the frame), the second the returned dict. -/
def run_simulation_st (total_initial_points : ℚ)
    (simulations : List (String × RiskFactor)) (burn_rate : ℚ)
    (total_stories : ℕ) (rand : ℕ → ℕ → ℚ) :
    List (String × RiskFactor) × TrialResult :=
  let avg_story_size := total_initial_points / (total_stories : ℚ)
  let (reg, results, adjusted_points) :=
    sim_loop_st rand avg_story_size total_stories simulations 0
      total_initial_points simulations
  (reg, ⟨results, adjusted_points / burn_rate, adjusted_points⟩)

/-- The value returned by `run_simulation` (the state-passing embedding
with the frame component dropped). -/
def run_simulation (total_initial_points : ℚ)
    (simulations : List (String × RiskFactor)) (burn_rate : ℚ)
    (total_stories : ℕ) (rand : ℕ → ℕ → ℚ) : TrialResult :=
  (run_simulation_st total_initial_points simulations burn_rate
    total_stories rand).2

lemma sim_loop_st_reg (rand : ℕ → ℕ → ℚ) (avg : ℚ) (ts : ℕ) :
    ∀ (sims : List (String × RiskFactor)) (i : ℕ) (adj : ℚ)
      (reg : List (String × RiskFactor)),
      (sim_loop_st rand avg ts sims i adj reg).1 = reg := by
  intro sims
  induction sims with
  | nil => intro i adj reg; rfl
  | cons hd tl ih =>
    intro i adj reg
    obtain ⟨k, f⟩ := hd
    simp only [sim_loop_st, ih]

lemma sim_loop_st_all_zero (rand : ℕ → ℕ → ℚ) (avg : ℚ) (ts : ℕ)
    (sims : List (String × RiskFactor))
    (hz : ∀ kf ∈ sims, ∀ i, factor_contribution rand avg i kf.2 ts = 0) :
    ∀ (i : ℕ) (adj : ℚ) (reg : List (String × RiskFactor)),
      sim_loop_st rand avg ts sims i adj reg =
        (reg, sims.map (fun kf => (kf.1, (0 : ℚ))), adj) := by
  induction sims with
  | nil => intro i adj reg; rfl
  | cons hd tl ih =>
    intro i adj reg
    obtain ⟨k, f⟩ := hd
    have hhd : factor_contribution rand avg i f ts = 0 :=
      hz (k, f) (List.mem_cons_self _ _) i
    have htl : ∀ kf ∈ tl, ∀ j, factor_contribution rand avg j kf.2 ts = 0 :=
      fun kf hkf => hz kf (List.mem_cons_of_mem _ hkf)
    simp only [sim_loop_st, hhd, ih htl, add_zero, List.map_cons]

/-- C4: when every factor in the registry has probability `0`, a trial
is deterministic: every recorded contribution is `0`, `final_points`
equals `total_initial_points`, and `delivery_weeks` is
`total_initial_points / burn_rate`, for every random source (whose
uniform draws are nonnegative by construction). -/
theorem run_simulation_all_prob_zero (total_initial_points : ℚ)
    (simulations : List (String × RiskFactor)) (burn_rate : ℚ)
    (total_stories : ℕ) (rand : ℕ → ℕ → ℚ)
    (hprob : ∀ kf ∈ simulations, kf.2.probability = 0)
    (hrand : ∀ i j, 0 ≤ rand i j)
    (hburn : 0 < burn_rate) (hstories : 0 < total_stories) :
    run_simulation total_initial_points simulations burn_rate
        total_stories rand =
      ⟨simulations.map (fun kf => (kf.1, (0 : ℚ))),
        total_initial_points / burn_rate, total_initial_points⟩ := by
  have hz : ∀ kf ∈ simulations, ∀ i,
      factor_contribution rand
        (total_initial_points / (total_stories : ℚ)) i kf.2
        total_stories = 0 := by
    intro kf hkf i
    unfold factor_contribution
    have hterm : ∀ j, np_binomial_draw (rand i j) kf.2.probability *
        kf.2.impact * (total_initial_points / (total_stories : ℚ)) = 0 := by
      intro j
      have : np_binomial_draw (rand i j) kf.2.probability = 0 := by
        unfold np_binomial_draw
        rw [hprob kf hkf]
        simp [not_lt.mpr (hrand i j)]
      rw [this, zero_mul, zero_mul]
    simp only [hterm]
    simp
  have hloop := sim_loop_st_all_zero rand
    (total_initial_points / (total_stories : ℚ)) total_stories
    simulations hz 0 total_initial_points simulations
  simp only [run_simulation, run_simulation_st, hloop]

/-- C4 witness: a two-factor registry with all probabilities `0`,
`total_initial_points = 10`, `burn_rate = 5`, `total_stories = 2`,
constant uniform draw `1/2`. -/
theorem run_simulation_all_prob_zero_witness :
    run_simulation 10 [("scope_creep", ⟨0, 2⟩), ("rework", ⟨0, 3⟩)] 5 2
        (fun _ _ => 1/2) =
      ⟨[("scope_creep", (0 : ℚ)), ("rework", 0)], 10 / 5, 10⟩ := by
  have h := run_simulation_all_prob_zero 10
    [("scope_creep", ⟨0, 2⟩), ("rework", ⟨0, 3⟩)] 5 2 (fun _ _ => 1/2)
    (by decide) (fun i j => by norm_num) (by norm_num) (by decide)
  simpa using h

lemma factor_contribution_nonneg (rand : ℕ → ℕ → ℚ) (avg : ℚ)
    (i : ℕ) (f : RiskFactor) (ts : ℕ) (havg : 0 ≤ avg)
    (himp : 0 ≤ f.impact) :
    0 ≤ factor_contribution rand avg i f ts := by
  unfold factor_contribution
  apply List.sum_nonneg
  intro x hx
  simp only [List.mem_map] at hx
  obtain ⟨j, _, rfl⟩ := hx
  have hdraw : 0 ≤ np_binomial_draw (rand i j) f.probability := by
    unfold np_binomial_draw
    split <;> norm_num
  positivity

lemma sim_loop_st_nonneg (rand : ℕ → ℕ → ℚ) (avg : ℚ) (ts : ℕ)
    (sims : List (String × RiskFactor))
    (hc : ∀ kf ∈ sims, ∀ i, 0 ≤ factor_contribution rand avg i kf.2 ts) :
    ∀ (i : ℕ) (adj : ℚ) (reg : List (String × RiskFactor)),
      (∀ p ∈ (sim_loop_st rand avg ts sims i adj reg).2.1, 0 ≤ p.2) ∧
      adj ≤ (sim_loop_st rand avg ts sims i adj reg).2.2 := by
  induction sims with
  | nil =>
    intro i adj reg
    exact ⟨by intro p hp; simp [sim_loop_st] at hp, le_refl adj⟩
  | cons hd tl ih =>
    intro i adj reg
    obtain ⟨k, f⟩ := hd
    have hhd : 0 ≤ factor_contribution rand avg i f ts :=
      hc (k, f) (List.mem_cons_self _ _) i
    have htl : ∀ kf ∈ tl, ∀ j, 0 ≤ factor_contribution rand avg j kf.2 ts :=
      fun kf hkf => hc kf (List.mem_cons_of_mem _ hkf)
    have hrec := ih htl (i + 1)
      (adj + factor_contribution rand avg i f ts) reg
    constructor
    · intro p hp
      simp only [sim_loop_st, List.mem_cons] at hp
      rcases hp with hp | hp
      · rw [hp]; exact hhd
      · exact hrec.1 p hp
    · calc adj ≤ adj + factor_contribution rand avg i f ts := by linarith
        _ ≤ _ := hrec.2


/-- C5: for probabilities in `[0,1]`, nonnegative impacts, nonnegative
`total_initial_points`, positive `total_stories` and positive
`burn_rate`, every contribution recorded in a trial is nonnegative and
`final_points` is at least `total_initial_points`. -/
theorem run_simulation_contributions_nonneg (total_initial_points : ℚ)
    (simulations : List (String × RiskFactor)) (burn_rate : ℚ)
    (total_stories : ℕ) (rand : ℕ → ℕ → ℚ)
    (hprob : ∀ kf ∈ simulations,
      0 ≤ kf.2.probability ∧ kf.2.probability ≤ 1)
    (himp : ∀ kf ∈ simulations, 0 ≤ kf.2.impact)
    (hinit : 0 ≤ total_initial_points)
    (hstories : 0 < total_stories) (hburn : 0 < burn_rate) :
    (∀ p ∈ (run_simulation total_initial_points simulations burn_rate
        total_stories rand).contributions, 0 ≤ p.2) ∧
    total_initial_points ≤
      (run_simulation total_initial_points simulations burn_rate
        total_stories rand).final_points := by
  have havg : 0 ≤ total_initial_points / (total_stories : ℚ) := by
    have : (0 : ℚ) ≤ (total_stories : ℚ) := by positivity
    positivity
  have hc : ∀ kf ∈ simulations, ∀ i,
      0 ≤ factor_contribution rand
        (total_initial_points / (total_stories : ℚ)) i kf.2
        total_stories :=
    fun kf hkf i =>
      factor_contribution_nonneg rand _ i kf.2 total_stories havg
        (himp kf hkf)
  have h := sim_loop_st_nonneg rand
    (total_initial_points / (total_stories : ℚ)) total_stories
    simulations hc 0 total_initial_points simulations
  unfold run_simulation run_simulation_st
  exact h

/-- C5 witness: one factor with probability `1/2` and impact `2`,
`total_initial_points = 10`, `burn_rate = 5`, `total_stories = 2`,
uniform draws all `0` (so every Bernoulli sample succeeds). -/
theorem run_simulation_contributions_nonneg_witness :
    (∀ p ∈ (run_simulation 10 [("scope_creep", ⟨1/2, 2⟩)] 5 2
        (fun _ _ => 0)).contributions, 0 ≤ p.2) ∧
    (10 : ℚ) ≤ (run_simulation 10 [("scope_creep", ⟨1/2, 2⟩)] 5 2
        (fun _ _ => 0)).final_points :=
  run_simulation_contributions_nonneg 10 [("scope_creep", ⟨1/2, 2⟩)] 5 2
    (fun _ _ => 0) (by norm_num) (by norm_num) (by norm_num) (by decide)
    (by norm_num)

/-- Model of `np.mean(values)`: the arithmetic mean `sum / length`. -/
def np_mean (xs : List ℚ) : ℚ :=
  xs.sum / (xs.length : ℚ)

/-- Model of the square of `np.std(values)`: numpy's default `ddof = 0`
gives the population variance `(Σ (x - mean)²) / length` — the divisor
is the full population size, not `length - 1`; `np.std` itself is the
square root of this quantity. -/
def np_std_sq (xs : List ℚ) : ℚ :=
  ((xs.map (fun x => (x - np_mean xs) ^ 2)).sum) / (xs.length : ℚ)

/-- The dict `aggregated_data` built by `monte_carlo_simulation`
(`src/main.py` lines 141-147), rendered as named fields. -/
structure Aggregated where
  delivery_weeks : ℚ
  total_stories : ℕ
  total_initial_points : ℚ
  extrapolated_points : ℚ
  final_points : ℚ
deriving DecidableEq, Repr

/-- The trial loop of `monte_carlo_simulation` (`src/main.py` lines
132-139) in state-passing form: runs `run_simulation` once per
remaining trial (`fuel` trials left, `t` is the index of the next
trial, `rand t` its private random source), threading the registry
state through the calls and collecting results in order. -/
def trials_loop_st (total_initial_points burn_rate : ℚ)
    (total_stories : ℕ) (rand : ℕ → ℕ → ℕ → ℚ) :
    ℕ → ℕ → List (String × RiskFactor) →
    List (String × RiskFactor) × List TrialResult
  | 0, _, reg => (reg, [])
  | fuel + 1, t, reg =>
    let (reg2, res) :=
      run_simulation_st total_initial_points reg burn_rate total_stories
        (rand t)
    let (reg3, rest) :=
      trials_loop_st total_initial_points burn_rate total_stories rand
        fuel (t + 1) reg2
    (reg3, res :: rest)

/-- Embedding of `monte_carlo_simulation(burn_rate, total_stories,
stories_without_estimates, story_points_for_estimated_stories,
num_simulations, simulations)` (`src/main.py` lines 91-149) with the
registry state threaded explicitly.  The first component is the
registry after the call; the second is `none` when
`calculate_initial_story_points` raises, else the pair of the
per-trial results list and the `aggregated_data` dict. -/
def monte_carlo_simulation_st (burn_rate : ℚ) (total_stories : ℕ)
    (stories_without_estimates story_points_for_estimated_stories : ℚ)
    (num_simulations : ℕ) (simulations : List (String × RiskFactor))
    (rand : ℕ → ℕ → ℕ → ℚ) :
    List (String × RiskFactor) × Option (List TrialResult × Aggregated) :=
  match calculate_initial_story_points (total_stories : ℚ)
      stories_without_estimates story_points_for_estimated_stories with
  | none => (simulations, none)
  | some total_initial_points =>
    let (reg, all_sim_results) :=
      trials_loop_st total_initial_points burn_rate total_stories rand
        num_simulations 0 simulations
    (reg, some (all_sim_results,
      ⟨np_mean (all_sim_results.map (fun sim => sim.delivery_weeks)),
        total_stories,
        total_initial_points,
        total_initial_points - story_points_for_estimated_stories,
        np_mean (all_sim_results.map (fun sim => sim.final_points))⟩))

/-- The value returned by `monte_carlo_simulation` (the state-passing
embedding with the frame component dropped). -/
def monte_carlo_simulation (burn_rate : ℚ) (total_stories : ℕ)
    (stories_without_estimates story_points_for_estimated_stories : ℚ)
    (num_simulations : ℕ) (simulations : List (String × RiskFactor))
    (rand : ℕ → ℕ → ℕ → ℚ) :
    Option (List TrialResult × Aggregated) :=
  (monte_carlo_simulation_st burn_rate total_stories
    stories_without_estimates story_points_for_estimated_stories
    num_simulations simulations rand).2

/-- The dict access `sim[key]` performed by `print_results`
(`src/main.py` lines 163-168) on one trial's result dict: the two
derived entries are written after the factor entries, so they win on a
name clash, mirroring Python's last-write-wins dict semantics. -/
def trial_get (t : TrialResult) (k : String) : ℚ :=
  if k = "delivery_weeks" then t.delivery_weeks
  else if k = "final_points" then t.final_points
  else ((t.contributions.lookup k).getD 0)

/-- The mean printed by `print_results` for key `k`:
`np.mean([sim[key] for sim in simulation_results])`. -/
def printed_mean (trials : List TrialResult) (k : String) : ℚ :=
  np_mean (trials.map (fun sim => trial_get sim k))

/-- The square of the `Std` figure printed by `print_results` for key
`k`: `np.std([sim[key] for sim in simulation_results])` is the square
root of this quantity. -/
def printed_std_sq (trials : List TrialResult) (k : String) : ℚ :=
  np_std_sq (trials.map (fun sim => trial_get sim k))

lemma trials_loop_st_reg (tip br : ℚ) (ts : ℕ) (rand : ℕ → ℕ → ℕ → ℚ) :
    ∀ (fuel t : ℕ) (reg : List (String × RiskFactor)),
      (trials_loop_st tip br ts rand fuel t reg).1 = reg := by
  intro fuel
  induction fuel with
  | zero => intro t reg; rfl
  | succ n ih =>
    intro t reg
    simp only [trials_loop_st]
    have hrun : (run_simulation_st tip reg br ts (rand t)).1 = reg := by
      unfold run_simulation_st
      simp only [sim_loop_st_reg]
    simp only [hrun, ih]

lemma trials_loop_st_length (tip br : ℚ) (ts : ℕ) (rand : ℕ → ℕ → ℕ → ℚ) :
    ∀ (fuel t : ℕ) (reg : List (String × RiskFactor)),
      (trials_loop_st tip br ts rand fuel t reg).2.length = fuel := by
  intro fuel
  induction fuel with
  | zero => intro t reg; rfl
  | succ n ih =>
    intro t reg
    simp only [trials_loop_st, sim_loop_st_reg, List.length_cons]
    rw [ih]

/-- C10: neither `run_simulation` nor `monte_carlo_simulation` modifies
the risk-factor registry passed to it: in the state-passing embedding,
the registry both return is exactly (entry for entry, name,
probability and impact alike) the registry they received. -/
theorem simulation_preserves_registry (total_initial_points burn_rate
    stories_without_estimates story_points_for_estimated_stories : ℚ)
    (total_stories num_simulations : ℕ)
    (simulations : List (String × RiskFactor)) (rand1 : ℕ → ℕ → ℚ)
    (rand : ℕ → ℕ → ℕ → ℚ) :
    (run_simulation_st total_initial_points simulations burn_rate
        total_stories rand1).1 = simulations ∧
    (monte_carlo_simulation_st burn_rate total_stories
        stories_without_estimates story_points_for_estimated_stories
        num_simulations simulations rand).1 = simulations := by
  constructor
  · unfold run_simulation_st
    simp only [sim_loop_st_reg]
  · unfold monte_carlo_simulation_st
    cases calculate_initial_story_points (total_stories : ℚ)
        stories_without_estimates story_points_for_estimated_stories with
    | none => rfl
    | some tip => simp only [trials_loop_st_reg]

/-- C6: the aggregation over the trials produced by
`monte_carlo_simulation` runs over the full population of
`num_simulations` trial results; the aggregated `delivery_weeks` and
`final_points` are arithmetic means over that population, and for every
report key (each factor name, `delivery_weeks` and `final_points`) the
mean and the squared standard deviation printed by `print_results`
satisfy `mean · num_trials = Σ values` and `std² · num_trials =
Σ (value − mean)²`: the divisor is `num_trials`, not `num_trials − 1`. -/
theorem monte_carlo_population_stats (burn_rate : ℚ) (total_stories : ℕ)
    (stories_without_estimates story_points_for_estimated_stories : ℚ)
    (num_simulations : ℕ) (simulations : List (String × RiskFactor))
    (rand : ℕ → ℕ → ℕ → ℚ) (trials : List TrialResult) (agg : Aggregated)
    (hnum : 0 < num_simulations)
    (h : monte_carlo_simulation burn_rate total_stories
      stories_without_estimates story_points_for_estimated_stories
      num_simulations simulations rand = some (trials, agg)) :
    trials.length = num_simulations ∧
    agg.delivery_weeks =
      np_mean (trials.map (fun sim => sim.delivery_weeks)) ∧
    agg.final_points =
      np_mean (trials.map (fun sim => sim.final_points)) ∧
    ∀ k : String,
      (trials.map (fun sim => trial_get sim k)).length = num_simulations ∧
      printed_mean trials k * (num_simulations : ℚ) =
        (trials.map (fun sim => trial_get sim k)).sum ∧
      printed_std_sq trials k * (num_simulations : ℚ) =
        ((trials.map (fun sim => trial_get sim k)).map
          (fun x => (x - printed_mean trials k) ^ 2)).sum := by
  have hlen : trials.length = num_simulations := by
    unfold monte_carlo_simulation monte_carlo_simulation_st at h
    cases hc : calculate_initial_story_points (total_stories : ℚ)
        stories_without_estimates story_points_for_estimated_stories with
    | none => rw [hc] at h; simp at h
    | some tip =>
      rw [hc] at h
      simp only [Option.some.injEq, Prod.mk.injEq] at h
      rw [← h.1]
      exact trials_loop_st_length tip burn_rate total_stories rand
        num_simulations 0 simulations
  have hagg : agg.delivery_weeks =
      np_mean (trials.map (fun sim => sim.delivery_weeks)) ∧
      agg.final_points =
        np_mean (trials.map (fun sim => sim.final_points)) := by
    unfold monte_carlo_simulation monte_carlo_simulation_st at h
    cases hc : calculate_initial_story_points (total_stories : ℚ)
        stories_without_estimates story_points_for_estimated_stories with
    | none => rw [hc] at h; simp at h
    | some tip =>
      rw [hc] at h
      simp only [Option.some.injEq, Prod.mk.injEq] at h
      rw [← h.1, ← h.2]
      exact ⟨rfl, rfl⟩
  have hnumQ : ((num_simulations : ℚ)) ≠ 0 := by
    exact_mod_cast hnum.ne'
  refine ⟨hlen, hagg.1, hagg.2, ?_⟩
  intro k
  have hvlen : (trials.map (fun sim => trial_get sim k)).length =
      num_simulations := by
    rw [List.length_map, hlen]
  refine ⟨hvlen, ?_, ?_⟩
  · unfold printed_mean np_mean
    rw [hvlen]
    field_simp
  · unfold printed_std_sq np_std_sq
    rw [hvlen]
    field_simp
    rfl

/-- C6 witness: one trial, empty registry, `burn_rate = 1`,
`total_stories = 1`, `story_points = 2`; the single trial is
`⟨[], 2, 2⟩` and the aggregate is `⟨2, 1, 2, 0, 2⟩`. -/
theorem monte_carlo_population_stats_witness :
    [(⟨[], 2, 2⟩ : TrialResult)].length = 1 ∧
    (⟨2, 1, 2, 0, 2⟩ : Aggregated).delivery_weeks =
      np_mean ([(⟨[], 2, 2⟩ : TrialResult)].map
        (fun sim => sim.delivery_weeks)) ∧
    (⟨2, 1, 2, 0, 2⟩ : Aggregated).final_points =
      np_mean ([(⟨[], 2, 2⟩ : TrialResult)].map
        (fun sim => sim.final_points)) ∧
    ∀ k : String,
      ([(⟨[], 2, 2⟩ : TrialResult)].map (fun sim => trial_get sim k)).length
        = 1 ∧
      printed_mean [(⟨[], 2, 2⟩ : TrialResult)] k * ((1 : ℕ) : ℚ) =
        ([(⟨[], 2, 2⟩ : TrialResult)].map (fun sim => trial_get sim k)).sum ∧
      printed_std_sq [(⟨[], 2, 2⟩ : TrialResult)] k * ((1 : ℕ) : ℚ) =
        (([(⟨[], 2, 2⟩ : TrialResult)].map (fun sim => trial_get sim k)).map
          (fun x => (x - printed_mean [(⟨[], 2, 2⟩ : TrialResult)] k) ^ 2)).sum :=
  monte_carlo_population_stats 1 1 0 2 1 [] (fun _ _ _ => 0)
    [⟨[], 2, 2⟩] ⟨2, 1, 2, 0, 2⟩ (by decide)
    (by norm_num [monte_carlo_simulation, monte_carlo_simulation_st,
      calculate_initial_story_points, trials_loop_st, run_simulation_st,
      sim_loop_st, np_mean])

/-- Whether day `d` (counted in days since the numpy datetime64 epoch
1970-01-01, a Thursday) is a business day under numpy's default
weekmask Monday-Friday: with Monday = 0 the weekday index of day `d`
is `(d + 3) % 7`. -/
def isBusinessDay (d : ℤ) : Bool :=
  decide ((d + 3) % 7 < 5)

/-- The `roll='forward'` rule of `np.busday_offset`: the first valid
(business) day on or after `d`.  Under the Monday-Friday weekmask the
only invalid days are Saturday (`d + 1` is Sunday, `d + 2` Monday) and
Sunday (`d + 1` is Monday), so two forward probes suffice. -/
def roll_forward (d : ℤ) : ℤ :=
  if isBusinessDay d then d
  else if isBusinessDay (d + 1) then d + 1
  else d + 2

/-- The first business day strictly after `d`. -/
def nextBusinessDay (d : ℤ) : ℤ :=
  roll_forward (d + 1)

/-- The latest business day on or before `d` (mirror of
`roll_forward`, used for negative offsets). -/
def roll_backward (d : ℤ) : ℤ :=
  if isBusinessDay d then d
  else if isBusinessDay (d - 1) then d - 1
  else d - 2

/-- The last business day strictly before `d`. -/
def prevBusinessDay (d : ℤ) : ℤ :=
  roll_backward (d - 1)

/-- Advance `d` by `n` valid (business) days, one at a time. -/
def advanceBusinessDays : ℤ → ℕ → ℤ
  | d, 0 => d
  | d, n + 1 => advanceBusinessDays (nextBusinessDay d) n

/-- Move `d` back by `n` valid (business) days, one at a time. -/
def retreatBusinessDays : ℤ → ℕ → ℤ
  | d, 0 => d
  | d, n + 1 => retreatBusinessDays (prevBusinessDay d) n

/-- Model of `np.busday_offset(date, n, roll='forward')` for an
integer offset `n`: numpy first applies the roll rule to make the date
a valid day, then counts `n` offsets in valid days. -/
def np_busday_offset (start : ℤ) (n : ℤ) : ℤ :=
  if 0 ≤ n then advanceBusinessDays (roll_forward start) n.toNat
  else retreatBusinessDays (roll_forward start) (-n).toNat

/-- Embedding of `get_delivery_date(start_date, delivery_weeks)`
(`src/main.py` lines 152-155):

    business_days = delivery_weeks * 5
    delivery_date = np.busday_offset(start_date, business_days, roll='forward')

`np.busday_offset` demands offsets castable to `int64` under numpy's
safe-casting rule and raises `TypeError` for the float
`business_days` whenever `delivery_weeks` is a float (as it always is
in `main`, where it comes from `np.mean`).  Numbers are modelled here
by their rational values, so the failure is keyed on the value: a
non-integral `business_days` (which in Python can only be a float)
yields `none`; an integral one (an integer-typed argument in the
modelled call) is offset with `np_busday_offset`.  The `str(...)`
wrapping of the returned date is dropped: the model returns the date
itself as a day count. -/
def get_delivery_date (start_date : ℤ) (delivery_weeks : ℚ) : Option ℤ :=
  let business_days := delivery_weeks * 5
  if business_days.den = 1 then
    some (np_busday_offset start_date business_days.num)
  else none

/-- C7: `get_delivery_date` does not truncate fractional weeks — it
fails on them.  At `start_date = 1970-01-05` (a Monday, day 4) and
`delivery_weeks = 1.79`, the offset `business_days = 8.95` is not an
integer, so `np.busday_offset` raises `TypeError` (`none` here) instead
of advancing by `floor(8.95) = 8` business days as the spec claims. -/
theorem get_delivery_date_fractional_weeks_fail :
    get_delivery_date 4 (179 / 100) = none := by
  unfold get_delivery_date
  have hden : ((179 / 100 : ℚ) * 5).den ≠ 1 := by
    intro h
    have hq : ((((179 / 100 : ℚ) * 5).num : ℚ)) = (179 / 100 : ℚ) * 5 :=
      Rat.coe_int_num_of_den_eq_one h
    have h20 : ((((179 / 100 : ℚ) * 5).num : ℚ)) * 20 = 179 := by
      rw [hq]; norm_num
    have hz : (((179 / 100 : ℚ) * 5).num) * 20 = 179 := by
      exact_mod_cast h20
    omega
  simp [hden]

lemma le_roll_forward (d : ℤ) : d ≤ roll_forward d := by
  unfold roll_forward
  split
  · exact le_refl d
  · split <;> omega

lemma lt_nextBusinessDay (d : ℤ) : d < nextBusinessDay d := by
  unfold nextBusinessDay
  have := le_roll_forward (d + 1)
  omega

lemma advanceBusinessDays_add (n k : ℕ) :
    ∀ d : ℤ, advanceBusinessDays d (n + k) =
      advanceBusinessDays (advanceBusinessDays d n) k := by
  induction n with
  | zero => intro d; rw [Nat.zero_add]; rfl
  | succ m ih =>
    intro d
    have : m + 1 + k = (m + k) + 1 := by omega
    rw [this]
    show advanceBusinessDays (nextBusinessDay d) (m + k) = _
    rw [ih (nextBusinessDay d)]
    rfl

lemma le_advanceBusinessDays (n : ℕ) :
    ∀ d : ℤ, d ≤ advanceBusinessDays d n := by
  induction n with
  | zero => intro d; exact le_refl d
  | succ m ih =>
    intro d
    calc d ≤ nextBusinessDay d := (lt_nextBusinessDay d).le
      _ ≤ advanceBusinessDays (nextBusinessDay d) m := ih _
      _ = advanceBusinessDays d (m + 1) := rfl

lemma advanceBusinessDays_mono (d : ℤ) {n1 n2 : ℕ} (h : n1 ≤ n2) :
    advanceBusinessDays d n1 ≤ advanceBusinessDays d n2 := by
  obtain ⟨k, rfl⟩ := Nat.exists_eq_add_of_le h
  rw [advanceBusinessDays_add]
  exact le_advanceBusinessDays k _

lemma np_busday_offset_mono (start : ℤ) {n1 n2 : ℤ} (h0 : 0 ≤ n1)
    (h : n1 ≤ n2) :
    np_busday_offset start n1 ≤ np_busday_offset start n2 := by
  unfold np_busday_offset
  rw [if_pos h0, if_pos (le_trans h0 h)]
  exact advanceBusinessDays_mono _ (Int.toNat_le_toNat h)

/-- C8: for a fixed `start_date`, `get_delivery_date` is monotone
non-decreasing in `delivery_weeks` wherever it returns a date: if
`0 ≤ w1 ≤ w2` and both calls return dates, the date for `w1` is not
later than the date for `w2`. -/
theorem get_delivery_date_mono (start_date : ℤ) (w1 w2 : ℚ) (d1 d2 : ℤ)
    (hw1 : 0 ≤ w1) (h12 : w1 ≤ w2)
    (h1 : get_delivery_date start_date w1 = some d1)
    (h2 : get_delivery_date start_date w2 = some d2) :
    d1 ≤ d2 := by
  unfold get_delivery_date at h1 h2
  by_cases hd1 : (w1 * 5).den = 1
  case neg => simp [hd1] at h1
  by_cases hd2 : (w2 * 5).den = 1
  case neg => simp [hd2] at h2
  simp only [hd1, if_pos, Option.some.injEq] at h1
  simp only [hd2, if_pos, Option.some.injEq] at h2
  have hn1 : (((w1 * 5).num : ℚ)) = w1 * 5 :=
    Rat.coe_int_num_of_den_eq_one hd1
  have hn2 : (((w2 * 5).num : ℚ)) = w2 * 5 :=
    Rat.coe_int_num_of_den_eq_one hd2
  have h0 : 0 ≤ (w1 * 5).num := by
    have h05 : (0 : ℚ) ≤ w1 * 5 := by linarith
    rw [← hn1] at h05
    exact_mod_cast h05
  have hle : (w1 * 5).num ≤ (w2 * 5).num := by
    have h5 : w1 * 5 ≤ w2 * 5 := by linarith
    rw [← hn1, ← hn2] at h5
    exact_mod_cast h5
  rw [← h1, ← h2]
  exact np_busday_offset_mono start_date h0 hle

/-- C8 witness: from Monday 1970-01-05 (day 4), one week lands on
Monday 1970-01-12 (day 11, after the weekend 10/11 Jan... days 9 and
10), two weeks on Monday 1970-01-19 (day 18), and 11 ≤ 18. -/
theorem get_delivery_date_mono_witness :
    get_delivery_date 4 1 = some 11 ∧ get_delivery_date 4 2 = some 18 ∧
      (11 : ℤ) ≤ 18 := by
  have e1 : get_delivery_date 4 1 = some 11 := by
    simp only [get_delivery_date, one_mul, Rat.den_ofNat, Rat.num_ofNat,
      if_pos]
    decide
  have e2 : get_delivery_date 4 2 = some 18 := by
    have h25 : (2 : ℚ) * 5 = 10 := by norm_num
    simp only [get_delivery_date, h25, Rat.den_ofNat, Rat.num_ofNat,
      if_pos]
    decide
  exact ⟨e1, e2, get_delivery_date_mono 4 1 2 11 18 (by norm_num)
    (by norm_num) e1 e2⟩

/-- One release's forecast as reported by the loop in `main`
(`src/main.py` lines 477-507): the release name, the `start_date` it
was printed with and the `forecasted_end_date` computed for it. -/
structure ReleaseForecast where
  name : String
  start_date : ℤ
  end_date : ℤ
deriving DecidableEq, Repr

/-- The release loop of `main` (`src/main.py` lines 474-507).  Each
list entry is one unreleased version together with the
`delivery_weeks` its Monte Carlo run produces (the Jira fetch and
`monte_carlo_simulation` are abstracted into this input); `endOf`
abstracts the date returned by `get_delivery_date`.  The loop state is
`start_date` and the `current` flag: for the first (current) release
the end date is computed from `today` (`datetime.today()`), for later
ones from the threaded `start_date`; after each release the loop sets
`start_date := forecasted_end_date + 1 day`. -/
def mainChain (endOf : ℤ → ℚ → ℤ) (today : ℤ) :
    List (String × ℚ) → ℤ → Bool → List ReleaseForecast
  | [], _, _ => []
  | (release_name, weeks) :: rest, start_date, current =>
    let forecasted_end_date :=
      if current then endOf today weeks else endOf start_date weeks
    ⟨release_name, start_date, forecasted_end_date⟩ ::
      mainChain endOf today rest (forecasted_end_date + 1) false

/-- The full chained run: `start_date` begins at the first unreleased
version's start date and the first iteration is the current one. -/
def main_forecasts (endOf : ℤ → ℚ → ℤ) (today : ℤ)
    (releases : List (String × ℚ)) (start0 : ℤ) : List ReleaseForecast :=
  mainChain endOf today releases start0 true

lemma mainChain_length (endOf : ℤ → ℚ → ℤ) (today : ℤ) :
    ∀ (rs : List (String × ℚ)) (s : ℤ) (c : Bool),
      (mainChain endOf today rs s c).length = rs.length := by
  intro rs
  induction rs with
  | nil => intro s c; rfl
  | cons hd tl ih =>
    intro s c
    obtain ⟨nm, w⟩ := hd
    simp only [mainChain, List.length_cons, ih]

lemma mainChain_head_start (endOf : ℤ → ℚ → ℤ) (today : ℤ)
    (rs : List (String × ℚ)) (s : ℤ) (c : Bool)
    (h : 0 < (mainChain endOf today rs s c).length) :
    ((mainChain endOf today rs s c).getD 0 ⟨"", 0, 0⟩).start_date = s := by
  cases rs with
  | nil => simp [mainChain] at h
  | cons hd tl =>
    obtain ⟨nm, w⟩ := hd
    simp [mainChain]

lemma mainChain_consecutive (endOf : ℤ → ℚ → ℤ) (today : ℤ) :
    ∀ (rs : List (String × ℚ)) (s : ℤ) (c : Bool) (i : ℕ),
      i + 1 < (mainChain endOf today rs s c).length →
      ((mainChain endOf today rs s c).getD (i + 1) ⟨"", 0, 0⟩).start_date =
        ((mainChain endOf today rs s c).getD i ⟨"", 0, 0⟩).end_date + 1 := by
  intro rs
  induction rs with
  | nil => intro s c i h; simp [mainChain] at h
  | cons hd tl ih =>
    intro s c i h
    obtain ⟨nm, w⟩ := hd
    cases i with
    | zero =>
      have hlen : 0 <
          (mainChain endOf today tl
            ((if c then endOf today w else endOf s w) + 1) false).length := by
        simp only [mainChain, List.length_cons] at h
        omega
      have hhead := mainChain_head_start endOf today tl
        ((if c then endOf today w else endOf s w) + 1) false hlen
      simp only [mainChain, List.getD_cons_succ, List.getD_cons_zero]
      exact hhead
    | succ j =>
      have hlen : j + 1 <
          (mainChain endOf today tl
            ((if c then endOf today w else endOf s w) + 1) false).length := by
        simp only [mainChain, List.length_cons] at h
        omega
      have := ih ((if c then endOf today w else endOf s w) + 1) false j hlen
      simp only [mainChain, List.getD_cons_succ]
      exact this

lemma mainChain_take (endOf : ℤ → ℚ → ℤ) (today : ℤ) :
    ∀ (rs more : List (String × ℚ)) (s : ℤ) (c : Bool),
      (mainChain endOf today (rs ++ more) s c).take rs.length =
        mainChain endOf today rs s c := by
  intro rs
  induction rs with
  | nil => intro more s c; rfl
  | cons hd tl ih =>
    intro more s c
    obtain ⟨nm, w⟩ := hd
    simp only [List.cons_append, mainChain, List.length_cons,
      List.take_succ_cons, List.append_eq, ih]

/-- C9: in a chained run, each release's printed `start_date` is the
previous release's `forecasted_end_date` plus one day, and a produced
forecast is immutable: appending further releases to the chain leaves
the forecasts already produced unchanged. -/
theorem chain_start_follows_end (endOf : ℤ → ℚ → ℤ) (today start0 : ℤ)
    (releases : List (String × ℚ)) :
    (∀ i : ℕ, i + 1 < (main_forecasts endOf today releases start0).length →
      ((main_forecasts endOf today releases start0).getD (i + 1)
        ⟨"", 0, 0⟩).start_date =
      ((main_forecasts endOf today releases start0).getD i
        ⟨"", 0, 0⟩).end_date + 1) ∧
    (∀ more : List (String × ℚ),
      (main_forecasts endOf today (releases ++ more) start0).take
          releases.length =
        main_forecasts endOf today releases start0) := by
  constructor
  · intro i h
    exact mainChain_consecutive endOf today releases start0 true i h
  · intro more
    exact mainChain_take endOf today releases more start0 true

/-- C9 witness: two releases, a seven-day `endOf`, starting day 5; the
second release starts on day 8 = end of the first (day 7) plus one. -/
theorem chain_start_follows_end_witness :
    ((main_forecasts (fun d _ => d + 7) 0 [("r1", 1), ("r2", 2)] 5).getD 1
      ⟨"", 0, 0⟩).start_date =
    ((main_forecasts (fun d _ => d + 7) 0 [("r1", 1), ("r2", 2)] 5).getD 0
      ⟨"", 0, 0⟩).end_date + 1 :=
  (chain_start_follows_end (fun d _ => d + 7) 0 5 [("r1", 1), ("r2", 2)]).1
    0 (by decide)

end ForecastModel
